import Mathlib

/-!
# SoundSynth filter core — Lean embedding

A shallow embedding of the two vectorized filter families of the repository:

* `sst::filters::K35Filter` (src/libs/sst/sst-filters/include/sst/filters/K35Filter.h)
* `sst::filters::ResonanceWarp` (src/libs/sst/sst-filters/include/sst/filters/ResonanceWarp.h)

SIMD lane-groups (`SIMD_M128`) are modelled as `Fin 4 → ℚ`, with the SSE
intrinsics `add_ps`/`sub_ps`/`mul_ps`/`div_ps`/`set_ps1` as the corresponding
elementwise rational operations.  Float arithmetic is embedded as exact
rational arithmetic.  The per-call mutation of the `QuadFilterUnitState`
becomes explicit state passing: each `process` function returns the updated
state together with the output lane-group.
-/

/-- `SIMD_M128`: one 4-wide lane-group, four independent voices. -/
abbrev Lane4 := Fin 4 → ℚ

/-- `SIMD_MM(add_ps)`: elementwise addition. -/
def addPs (a b : Lane4) : Lane4 := fun i => a i + b i

/-- `SIMD_MM(sub_ps)`: elementwise subtraction. -/
def subPs (a b : Lane4) : Lane4 := fun i => a i - b i

/-- `SIMD_MM(mul_ps)`: elementwise multiplication. -/
def mulPs (a b : Lane4) : Lane4 := fun i => a i * b i

/-- `SIMD_MM(div_ps)`: elementwise division. -/
def divPs (a b : Lane4) : Lane4 := fun i => a i / b i

/-- `SIMD_MM(set_ps1)`: broadcast one scalar to all four lanes. -/
def setPs1 (a : ℚ) : Lane4 := fun _ => a

/-- The all-zero lane-group. -/
def zeroL : Lane4 := fun _ => 0

/-- `std::clamp(v, lo, hi)` as defined by the C++ standard. -/
def cppClamp (v lo hi : ℚ) : ℚ := if v < lo then lo else if hi < v then hi else v

/-- Modelled from the spec: the saturation primitives are external
collaborators (sst-basic-blocks `FastMath.h`, not part of this repository);
the spec describes them as bounded hyperbolic-tangent-like functions.  Scalar
form of `fasttanhSSEclamped`: input clamped to a bounded interval, then a
rational tanh approximation. -/
def fasttanhClamped1 (x : ℚ) : ℚ :=
  let c := cppClamp x (-3) 3
  c * (27 + c * c) / (27 + 9 * (c * c))

/-- `fasttanhSSEclamped`, elementwise over the lane-group. -/
def fasttanhSSEclamped (v : Lane4) : Lane4 := fun i => fasttanhClamped1 (v i)

/-- Modelled from the spec: scalar soft-clip saturator (sst-basic-blocks
`Clippers.h`, not part of this repository); the spec describes it as a bounded
soft-clip nonlinearity. -/
def softclip1 (x : ℚ) : ℚ :=
  let c := cppClamp x (-(3/2)) (3/2)
  c - (4/27) * (c * c * c)

/-- `softclip_ps`, elementwise over the lane-group. -/
def softclip_ps (v : Lane4) : Lane4 := fun i => softclip1 (v i)

/-- Modelled from the spec: `QuadFilterUnitState` (QuadFilterUnit.h, not part
of this repository) carries the current coefficients `C`, the per-sample
coefficient deltas `dC`, and the register file `R`.  The spec gives 8
coefficient slots for both families and at most 8 register slots (3 used by
K35, 2 per stage × up to 4 stages for ResonanceWarp). -/
structure QuadFilterUnitState where
  C : Fin 8 → Lane4
  dC : Fin 8 → Lane4
  R : Fin 8 → Lane4

/-- A state whose current coefficients broadcast a scalar coefficient vector,
with zero deltas and zero registers — the situation right after a filter
reset followed by a direct coefficient load. -/
def stateOfCoeffs (c : Fin 8 → ℚ) : QuadFilterUnitState :=
  ⟨fun j => setPs1 (c j), fun _ => zeroL, fun _ => zeroL⟩

/-- Rational stand-in for the C `M_PI` constant. -/
def mPI : ℚ := 3.14159265358979323846

namespace K35Filter

/-- `clampedFrequency`: pitch → frequency, clamped to `[5, 0.3·sampleRate]`.
The tuning provider's `note_to_pitch_ignoring_tuning` and `MIDI_0_FREQ` are
external template parameters, taken here as the arguments `ntp` and `midi0`. -/
def clampedFrequency (ntp : ℚ → ℚ) (midi0 : ℚ) (pitch sampleRate : ℚ) : ℚ :=
  cppClamp (ntp (pitch + 69) * midi0) 5 (sampleRate * 0.3)

/-- `doLpf`: one-pole lowpass step; returns `(result, updated z)`. -/
def doLpf (G input z : Lane4) : Lane4 × Lane4 :=
  let v := mulPs (subPs input z) G
  let result := addPs v z
  (result, addPs v result)

/-- `doHpf`: one-pole highpass step; returns `(result, updated z)`. -/
def doHpf (G input z : Lane4) : Lane4 × Lane4 :=
  let l := doLpf G input z
  (subPs input l.1, l.2)

/-- Coefficient slots: `k35_G = 0`, `k35_lb = 1`, `k35_hb = 2`, `k35_k = 3`,
`k35_alpha = 4`, `k35_saturation = 5`, `k35_saturation_blend = 6`,
`k35_saturation_blend_inv = 7`.  Register slots: `k35_lz = 0`, `k35_hz = 1`,
`k35_2z = 2`.  `makeCoefficients` with the tangent approximation `tanF`
(external, sst-basic-blocks `fasttan`) and tuning provider as parameters. -/
def makeCoefficients (tanF ntp : ℚ → ℚ) (midi0 freq reso : ℚ)
    (is_lowpass : Bool) (saturation sampleRate sampleRateInv : ℚ) : Fin 8 → ℚ :=
  let wd := clampedFrequency ntp midi0 freq sampleRate * 2 * mPI
  let wa := (2 * sampleRate) * tanF (wd * sampleRateInv * 0.5)
  let g := wa * sampleRateInv * 0.5
  let gp1 := 1 + g
  let G := g / gp1
  let k := reso * 1.96
  let mk := if k > 1.96 then 1.96 else if k < 0.01 then 0.01 else k
  let lb := if is_lowpass then (mk - mk * G) / gp1 else 1 / gp1
  let hb := if is_lowpass then -1 / gp1 else -G / gp1
  let blend := min saturation 1
  ![G, lb, hb, mk, 1 / (1 - mk * G + mk * G * G), saturation, blend, 1 - blend]

/-- `processCoeffs`: advance every coefficient slot by its per-sample delta. -/
def processCoeffs (f : QuadFilterUnitState) : QuadFilterUnitState :=
  { f with C := fun i => addPs (f.C i) (f.dC i) }

/-- `process_lp`: the K35 lowpass per-sample call; returns the updated state
and the output lane-group. -/
def process_lp (f0 : QuadFilterUnitState) (input : Lane4) : QuadFilterUnitState × Lane4 :=
  let f := processCoeffs f0
  let l1 := doLpf (f.C 0) input (f.R 0)
  let s35 := addPs (mulPs (f.C 1) (f.R 2)) (mulPs (f.C 2) (f.R 1))
  let u_clean := mulPs (f.C 4) (addPs l1.1 s35)
  let u_driven := fasttanhSSEclamped (mulPs u_clean (f.C 5))
  let u := addPs (mulPs u_clean (f.C 7)) (mulPs u_driven (f.C 6))
  let l2 := doLpf (f.C 0) u (f.R 2)
  let y := mulPs (f.C 3) l2.1
  let h1 := doHpf (f.C 0) y (f.R 1)
  let result := divPs y (f.C 3)
  ({ f with R := fun j => if j = 0 then l1.2 else if j = 1 then h1.2
                          else if j = 2 then l2.2 else f.R j }, result)

/-- `process_hp`: the K35 highpass per-sample call; returns the updated state
and the output lane-group. -/
def process_hp (f0 : QuadFilterUnitState) (input : Lane4) : QuadFilterUnitState × Lane4 :=
  let f := processCoeffs f0
  let h1 := doHpf (f.C 0) input (f.R 1)
  let s35 := addPs (mulPs (f.C 2) (f.R 2)) (mulPs (f.C 1) (f.R 0))
  let u := mulPs (f.C 4) (addPs h1.1 s35)
  let y_clean := mulPs (f.C 3) u
  let y_driven := fasttanhSSEclamped (mulPs y_clean (f.C 5))
  let y := addPs (mulPs y_clean (f.C 7)) (mulPs y_driven (f.C 6))
  let h2 := doHpf (f.C 0) y (f.R 2)
  let l1 := doLpf (f.C 0) h2.1 (f.R 0)
  let result := divPs y (f.C 3)
  ({ f with R := fun j => if j = 0 then l1.2 else if j = 1 then h1.2
                          else if j = 2 then h2.2 else f.R j }, result)

end K35Filter

namespace ResonanceWarp

/-- `clampedFrequency`: same clamp as the K35 family, written in the
ResonanceWarp header. -/
def clampedFrequency (ntp : ℚ → ℚ) (midi0 : ℚ) (pitch sampleRate : ℚ) : ℚ :=
  cppClamp (ntp (pitch + 69) * midi0) 5 (sampleRate * 0.3)

/-- `Saturator` selector values: `SAT_TANH = 0`, `SAT_SOFT = 1`. -/
def SAT_TANH : ℕ := 0

/-- `doNLFilter`: one nonlinear biquad stage.  Returns
`(out, updated z1, updated z2)`; the `switch (sat)` applies `fasttanhSSEclamped`
for `SAT_TANH` and `softclip_ps` in the default branch. -/
def doNLFilter (input a1 a2 b0 b1 b2 : Lane4) (sat : ℕ) (z1 z2 : Lane4) :
    Lane4 × Lane4 × Lane4 :=
  let out := addPs z1 (mulPs b0 input)
  let z1n := addPs z2 (subPs (mulPs b1 input) (mulPs a1 out))
  let z2n := subPs (mulPs b2 input) (mulPs a2 out)
  if sat = SAT_TANH then (out, fasttanhSSEclamped z1n, fasttanhSSEclamped z2n)
  else (out, softclip_ps z1n, softclip_ps z2n)

/-- Coefficient slots: `nls_a1 = 0`, `nls_a2 = 1`, `nls_b0 = 2`, `nls_b1 = 3`,
`nls_b2 = 4`; `n_nls_coeff = 5`.  Register slots `nls_z1 .. nls_z8 = 0 .. 7`.
Variant selector values for `makeCoefficients`' `type` argument
(`fut_resonancewarp_lp/hp/n/bp/ap`) are taken as `0,1,2,3,4`.  `sinF`/`cosF`
are the external `fastsin`/`fastcos` approximations. -/
def makeCoefficients (sinF cosF ntp : ℚ → ℚ) (midi0 freq reso : ℚ) (type : ℕ)
    (sampleRate : ℚ) : Fin 8 → ℚ :=
  let r := cppClamp reso 0 1
  let q := r * r * r * 18 + 0.1
  let wc := 2 * mPI * clampedFrequency ntp midi0 freq sampleRate / sampleRate
  let wsin := sinF wc
  let wcos := cosF wc
  let alpha := wsin / (2 * q)
  let a0r := 1 / (1 + alpha)
  let a1 := -2 * wcos * a0r
  let a2 := (1 - alpha) * a0r
  if type = 0 then
    let b1 := (1 - wcos) * a0r
    ![a1, a2, b1 * 0.5, b1, b1 * 0.5, 0, 0, 0]
  else if type = 1 then
    let b1 := -(1 + wcos) * a0r
    ![a1, a2, b1 * (-0.5), b1, b1 * (-0.5), 0, 0, 0]
  else if type = 2 then
    ![a1, a2, a0r, -2 * wcos * a0r, a0r, 0, 0, 0]
  else if type = 3 then
    let b0 := wsin * 0.5 * a0r
    ![a1, a2, b0, 0, -b0, 0, 0, 0]
  else
    ![a1, a2, a2, a1, 1, 0, 0, 0]

/-- One iteration of the stage loop: stage `stage` reads registers
`R[nls_z1 + stage*2]` and `R[nls_z2 + stage*2]`, feeds the running input
through `doNLFilter`, and writes the two updated registers back.  The bounds
guard totalizes the fixed-size register access; every call site has
`stage ≤ 3`, so it always passes. -/
def applyStage (a1 a2 b0 b1 b2 : Lane4) (sat stage : ℕ)
    (s : (Fin 8 → Lane4) × Lane4) : (Fin 8 → Lane4) × Lane4 :=
  if h : 2 * stage + 1 < 8 then
    let i1 : Fin 8 := ⟨2 * stage, by omega⟩
    let i2 : Fin 8 := ⟨2 * stage + 1, h⟩
    let r := doNLFilter s.2 a1 a2 b0 b1 b2 sat (s.1 i1) (s.1 i2)
    (fun j => if j = i1 then r.2.1 else if j = i2 then r.2.2 else s.1 j, r.1)
  else s

/-- `for (int stage = 0; stage <= stages; ++stage)`: run stages
`0, 1, …, stages` in order, chaining the running input. -/
def stageLoop (a1 a2 b0 b1 b2 : Lane4) (sat : ℕ) :
    ℕ → (Fin 8 → Lane4) × Lane4 → (Fin 8 → Lane4) × Lane4
  | 0, s => applyStage a1 a2 b0 b1 b2 sat 0 s
  | n + 1, s => applyStage a1 a2 b0 b1 b2 sat (n + 1) (stageLoop a1 a2 b0 b1 b2 sat n s)

/-- `process<subtype>`: `stages = subtype & 3` (zero-indexed stage count),
`sat = (subtype >> 2) & 3`; run the stage loop, then advance the first
`n_nls_coeff = 5` coefficient slots by their deltas. -/
def process (subtype : ℕ) (f : QuadFilterUnitState) (input : Lane4) :
    QuadFilterUnitState × Lane4 :=
  let stages := subtype % 4
  let sat := (subtype / 4) % 4
  let s := stageLoop (f.C 0) (f.C 1) (f.C 2) (f.C 3) (f.C 4) sat stages (f.R, input)
  ({ f with R := s.1,
            C := fun i => if i.val < 5 then addPs (f.C i) (f.dC i) else f.C i }, s.2)

end ResonanceWarp

/-! ## Iteration of the per-sample calls, and claim-side reference definitions -/

namespace K35Filter

/-- `n` consecutive `process_lp` calls, the `m`-th call fed input `xs m`. -/
def iterate_lp (xs : ℕ → Lane4) : ℕ → QuadFilterUnitState → QuadFilterUnitState
  | 0, f => f
  | n + 1, f => (process_lp (iterate_lp xs n f) (xs n)).1

/-- `n` consecutive `process_hp` calls, the `m`-th call fed input `xs m`. -/
def iterate_hp (xs : ℕ → Lane4) : ℕ → QuadFilterUnitState → QuadFilterUnitState
  | 0, f => f
  | n + 1, f => (process_hp (iterate_hp xs n f) (xs n)).1

/-- The body of `process_lp` after its `processCoeffs` call: the
algorithm-specific lowpass recurrence evaluated on the state as given. -/
def lpRecurrence (f : QuadFilterUnitState) (input : Lane4) : QuadFilterUnitState × Lane4 :=
  let l1 := doLpf (f.C 0) input (f.R 0)
  let s35 := addPs (mulPs (f.C 1) (f.R 2)) (mulPs (f.C 2) (f.R 1))
  let u_clean := mulPs (f.C 4) (addPs l1.1 s35)
  let u_driven := fasttanhSSEclamped (mulPs u_clean (f.C 5))
  let u := addPs (mulPs u_clean (f.C 7)) (mulPs u_driven (f.C 6))
  let l2 := doLpf (f.C 0) u (f.R 2)
  let y := mulPs (f.C 3) l2.1
  let h1 := doHpf (f.C 0) y (f.R 1)
  let result := divPs y (f.C 3)
  ({ f with R := fun j => if j = 0 then l1.2 else if j = 1 then h1.2
                          else if j = 2 then l2.2 else f.R j }, result)

/-- The body of `process_hp` after its `processCoeffs` call. -/
def hpRecurrence (f : QuadFilterUnitState) (input : Lane4) : QuadFilterUnitState × Lane4 :=
  let h1 := doHpf (f.C 0) input (f.R 1)
  let s35 := addPs (mulPs (f.C 2) (f.R 2)) (mulPs (f.C 1) (f.R 0))
  let u := mulPs (f.C 4) (addPs h1.1 s35)
  let y_clean := mulPs (f.C 3) u
  let y_driven := fasttanhSSEclamped (mulPs y_clean (f.C 5))
  let y := addPs (mulPs y_clean (f.C 7)) (mulPs y_driven (f.C 6))
  let h2 := doHpf (f.C 0) y (f.R 2)
  let l1 := doLpf (f.C 0) h2.1 (f.R 0)
  let result := divPs y (f.C 3)
  ({ f with R := fun j => if j = 0 then l1.2 else if j = 1 then h1.2
                          else if j = 2 then h2.2 else f.R j }, result)

end K35Filter

namespace ResonanceWarp

/-- `n` consecutive `process` calls of one subtype, the `m`-th call fed
input `xs m`. -/
def iterate (subtype : ℕ) (xs : ℕ → Lane4) :
    ℕ → QuadFilterUnitState → QuadFilterUnitState
  | 0, f => f
  | n + 1, f => (process subtype (iterate subtype xs n f) (xs n)).1

/-- The stage loop of `process` run on the state as given, with no
coefficient advancement at all. -/
def recurrence (subtype : ℕ) (f : QuadFilterUnitState) (input : Lane4) :
    QuadFilterUnitState × Lane4 :=
  let s := stageLoop (f.C 0) (f.C 1) (f.C 2) (f.C 3) (f.C 4) ((subtype / 4) % 4)
    (subtype % 4) (f.R, input)
  ({ f with R := s.1 }, s.2)

/-- Advance the first `n_nls_coeff = 5` coefficient slots by their deltas. -/
def advanceCoeffs (f : QuadFilterUnitState) : QuadFilterUnitState :=
  { f with C := fun i => if i.val < 5 then addPs (f.C i) (f.dC i) else f.C i }

/-- The contract asserted by the spec's ramp-driver section, formalized:
advance every coefficient slot first (all 8, `C[i] += dC[i]` for all `i`),
then evaluate the recurrence on the advanced coefficients. -/
def processAdvanceFirstSpec (subtype : ℕ) (f : QuadFilterUnitState) (input : Lane4) :
    QuadFilterUnitState × Lane4 :=
  let g := { f with C := fun i => addPs (f.C i) (f.dC i) }
  recurrence subtype g input

end ResonanceWarp

namespace RWSpec

/-- Claim-side saturator selection: tanh-like when the 2-bit field is 0,
soft-clip otherwise. -/
def saturate (sat : ℕ) (v : Lane4) : Lane4 :=
  if sat = 0 then fasttanhSSEclamped v else softclip_ps v

/-- Claim-side stage `k`: `out = z1 + b0·input`, `z1' = z2 + b1·input − a1·out`,
`z2' = b2·input − a2·out`, both new register values pushed through the
selected saturator, where `z1 = R[2k]` and `z2 = R[2k+1]`. -/
def stage (a1 a2 b0 b1 b2 : Lane4) (sat k : ℕ)
    (s : (Fin 8 → Lane4) × Lane4) : (Fin 8 → Lane4) × Lane4 :=
  if h : 2 * k + 1 < 8 then
    let i1 : Fin 8 := ⟨2 * k, by omega⟩
    let i2 : Fin 8 := ⟨2 * k + 1, h⟩
    let z1 := s.1 i1
    let z2 := s.1 i2
    let out := addPs z1 (mulPs b0 s.2)
    let z1n := addPs z2 (subPs (mulPs b1 s.2) (mulPs a1 out))
    let z2n := subPs (mulPs b2 s.2) (mulPs a2 out)
    (fun j => if j = i1 then saturate sat z1n else if j = i2 then saturate sat z2n
              else s.1 j, out)
  else s

/-- Claim-side cascade: `N` chained stages, stage `i`'s output feeding
stage `i+1`'s input. -/
def chain (a1 a2 b0 b1 b2 : Lane4) (sat N : ℕ)
    (s : (Fin 8 → Lane4) × Lane4) : (Fin 8 → Lane4) × Lane4 :=
  (List.range N).foldl (fun t k => stage a1 a2 b0 b1 b2 sat k t) s

/-- Claim-side ResonanceWarp call: `N = (subtype & 3) + 1 ∈ [1,4]` chained
stages sharing one coefficient set, saturator selected by bits 2–3 of
`subtype`, and the coefficient set advanced by its deltas exactly once per
call. -/
def process (subtype : ℕ) (f : QuadFilterUnitState) (input : Lane4) :
    QuadFilterUnitState × Lane4 :=
  let N := subtype % 4 + 1
  let sat := (subtype / 4) % 4
  let s := chain (f.C 0) (f.C 1) (f.C 2) (f.C 3) (f.C 4) sat N (f.R, input)
  ({ f with R := s.1,
            C := fun i => if i.val < 5 then addPs (f.C i) (f.dC i) else f.C i }, s.2)

end RWSpec

/-! ## Concrete states used by the counterexamples and witnesses -/

/-- The all-ones lane-group. -/
def onesL : Lane4 := fun _ => 1

/-- The spec's concrete K35 scenario: sampleRate 48000, tuning provider
mapping the note to 60 Hz (`ntp` constantly 60, `MIDI_0_FREQ = 1`), resonance
0.5, saturation 0, lowpass variant; the external tangent approximation is
taken as the identity (exact for the small prewarp argument of the scenario);
registers zero, deltas zero. -/
def k35Scenario : QuadFilterUnitState :=
  stateOfCoeffs
    (K35Filter.makeCoefficients (fun x => x) (fun _ => 60) 1 0 0.5 true 0 48000 (1/48000))

/-- A ResonanceWarp state with zero coefficients and registers but a unit
delta on the `nls_b0` slot: one call makes the pre-advance and post-advance
coefficient values observable. -/
def rwDeltaState : QuadFilterUnitState :=
  ⟨fun _ => zeroL, fun j => if j = 2 then onesL else zeroL, fun _ => zeroL⟩

/-- A ramp state: current coefficients all zero, every delta slot one,
registers zero. -/
def rwRampState : QuadFilterUnitState :=
  ⟨fun _ => zeroL, fun _ => onesL, fun _ => zeroL⟩

/-- A state with distinct values in every coefficient, delta and register
lane, used to witness the lane-independence and frame theorems on a
non-degenerate input. -/
def sampleState : QuadFilterUnitState :=
  ⟨fun j => fun i => ((j : ℕ) + 2 * (i : ℕ) + 1 : ℚ) / 7,
   fun j => fun i => ((j : ℕ) - (i : ℕ) : ℚ) / 11,
   fun j => fun i => (2 * (j : ℕ) + (i : ℕ) : ℚ) / 5⟩

/-- `sampleState` with all lanes other than lane 0 of every input slot
perturbed, used to witness lane non-interference. -/
def sampleStatePerturbed : QuadFilterUnitState :=
  ⟨fun j => fun i => if i = 0 then sampleState.C j i else sampleState.C j i + 1,
   fun j => fun i => if i = 0 then sampleState.dC j i else sampleState.dC j i - 2,
   fun j => fun i => if i = 0 then sampleState.R j i else 3 * sampleState.R j i + 1⟩

/-- An input lane-group agreeing with `onesL` on lane 0 only. -/
def onesPerturbedL : Lane4 := fun i => if i = 0 then 1 else 5

/-- The all-zero input sequence. -/
def zsL : ℕ → Lane4 := fun _ => zeroL

/-! ## Helper lemmas -/

@[simp]
theorem addPs_apply (a b : Lane4) (i : Fin 4) : addPs a b i = a i + b i := rfl

@[simp]
theorem subPs_apply (a b : Lane4) (i : Fin 4) : subPs a b i = a i - b i := rfl

@[simp]
theorem mulPs_apply (a b : Lane4) (i : Fin 4) : mulPs a b i = a i * b i := rfl

@[simp]
theorem divPs_apply (a b : Lane4) (i : Fin 4) : divPs a b i = a i / b i := rfl

@[simp]
theorem zeroL_apply (i : Fin 4) : zeroL i = 0 := rfl

@[simp]
theorem onesL_apply (i : Fin 4) : onesL i = 1 := rfl

@[simp]
theorem fasttanhSSEclamped_apply (v : Lane4) (i : Fin 4) :
    fasttanhSSEclamped v i = fasttanhClamped1 (v i) := rfl

@[simp]
theorem softclip_ps_apply (v : Lane4) (i : Fin 4) : softclip_ps v i = softclip1 (v i) := rfl

@[simp]
theorem fasttanhClamped1_zero : fasttanhClamped1 0 = 0 := by
  norm_num [fasttanhClamped1, cppClamp]

@[simp]
theorem softclip1_zero : softclip1 0 = 0 := by
  norm_num [softclip1, cppClamp]

/-! ## C4 -/

/-- C4: for every input to the K35 coefficient maker (the family whose
coefficient vector carries the resonance coefficient `k`, slot `k35_k = 3`),
the derived `k` satisfies `0.01 ≤ k ≤ 1.96` and equals
`clamp(reso·1.96, 0.01, 1.96)`. -/
theorem k35_k_slot_bounded (tanF ntp : ℚ → ℚ) (midi0 freq reso : ℚ)
    (is_lowpass : Bool) (saturation sampleRate sampleRateInv : ℚ) :
    0.01 ≤ K35Filter.makeCoefficients tanF ntp midi0 freq reso is_lowpass
        saturation sampleRate sampleRateInv 3 ∧
    K35Filter.makeCoefficients tanF ntp midi0 freq reso is_lowpass
        saturation sampleRate sampleRateInv 3 ≤ 1.96 ∧
    K35Filter.makeCoefficients tanF ntp midi0 freq reso is_lowpass
        saturation sampleRate sampleRateInv 3
      = max 0.01 (min 1.96 (reso * 1.96)) := by
  have h3 : K35Filter.makeCoefficients tanF ntp midi0 freq reso is_lowpass
      saturation sampleRate sampleRateInv 3
      = if reso * 1.96 > 1.96 then (1.96 : ℚ)
        else if reso * 1.96 < 0.01 then 0.01 else reso * 1.96 := rfl
  rw [h3]
  split_ifs with h1 h2
  · refine ⟨by norm_num, by norm_num, ?_⟩
    rw [min_eq_left (by linarith), max_eq_right (by norm_num)]
  · refine ⟨by norm_num, by norm_num, ?_⟩
    rw [min_eq_right (by linarith), max_eq_left (by linarith)]
  · refine ⟨by linarith, by linarith, ?_⟩
    rw [min_eq_right (by linarith), max_eq_right (by linarith)]

/-! ## C9 -/

/-- C9: the `k35_k` slot of every K35 coefficient vector produced by
`makeCoefficients` is at least 0.01, hence nonzero, so the final
`y / C[k35_k]` division of `process_lp` and `process_hp` never divides
by zero. -/
theorem k35_k_slot_nonzero (tanF ntp : ℚ → ℚ) (midi0 freq reso : ℚ)
    (is_lowpass : Bool) (saturation sampleRate sampleRateInv : ℚ) :
    0.01 ≤ K35Filter.makeCoefficients tanF ntp midi0 freq reso is_lowpass
        saturation sampleRate sampleRateInv 3 ∧
    K35Filter.makeCoefficients tanF ntp midi0 freq reso is_lowpass
        saturation sampleRate sampleRateInv 3 ≠ 0 := by
  have h3 : K35Filter.makeCoefficients tanF ntp midi0 freq reso is_lowpass
      saturation sampleRate sampleRateInv 3
      = if reso * 1.96 > 1.96 then (1.96 : ℚ)
        else if reso * 1.96 < 0.01 then 0.01 else reso * 1.96 := rfl
  rw [h3]
  split_ifs with h1 h2
  · exact ⟨by norm_num, by norm_num⟩
  · exact ⟨by norm_num, by norm_num⟩
  · exact ⟨by linarith, by push_neg at h2; intro h; rw [h] at h2; norm_num at h2⟩

/-! ## C1 -/

/-- C1 counterexample: one concrete ResonanceWarp call (subtype 0, a unit
delta on the `nls_b0` slot, zero current coefficients and registers, all-ones
input) whose recurrence uses the pre-advance coefficients: the actual output
is 0, while evaluating the recurrence on the already-advanced coefficients —
what the claim asserts the call does — gives 1. -/
theorem rw_advance_order_counterexample :
    (ResonanceWarp.process 0 rwDeltaState onesL).2 0 = 0 ∧
    (ResonanceWarp.processAdvanceFirstSpec 0 rwDeltaState onesL).2 0 = 1 ∧
    (ResonanceWarp.process 0 rwDeltaState onesL).2 0 ≠
      (ResonanceWarp.processAdvanceFirstSpec 0 rwDeltaState onesL).2 0 := by
  have h0 : (ResonanceWarp.process 0 rwDeltaState onesL).2 0 = 0 := by
    norm_num [ResonanceWarp.process, ResonanceWarp.stageLoop, ResonanceWarp.applyStage,
      ResonanceWarp.doNLFilter, ResonanceWarp.SAT_TANH, rwDeltaState, addPs, mulPs, subPs,
      zeroL, onesL]
  have h1 : (ResonanceWarp.processAdvanceFirstSpec 0 rwDeltaState onesL).2 0 = 1 := by
    norm_num [ResonanceWarp.processAdvanceFirstSpec, ResonanceWarp.recurrence,
      ResonanceWarp.process, ResonanceWarp.stageLoop, ResonanceWarp.applyStage,
      ResonanceWarp.doNLFilter, ResonanceWarp.SAT_TANH, rwDeltaState, addPs, mulPs, subPs,
      zeroL, onesL]
  exact ⟨h0, h1, by rw [h0, h1]; norm_num⟩

/-- C1 amended: the K35 calls (`process_lp`, `process_hp`) do advance every
coefficient slot first and then evaluate the recurrence on the advanced
values; the ResonanceWarp call instead evaluates its recurrence on the
pre-call coefficient values and only afterwards advances the first five
slots by their deltas. -/
theorem advance_order_amended :
    (∀ f x, K35Filter.process_lp f x = K35Filter.lpRecurrence (K35Filter.processCoeffs f) x) ∧
    (∀ f x, K35Filter.process_hp f x = K35Filter.hpRecurrence (K35Filter.processCoeffs f) x) ∧
    (∀ subtype f x, ResonanceWarp.process subtype f x =
      (ResonanceWarp.advanceCoeffs (ResonanceWarp.recurrence subtype f x).1,
       (ResonanceWarp.recurrence subtype f x).2)) := by
  exact ⟨fun f x => rfl, fun f x => rfl, fun subtype f x => rfl⟩

/-! ## C2 -/

/-- C2 amended: with register `lz` zero before the call and a zero delta on
the `k35_G` slot, one `process_lp` call leaves `lz = 2·G·input` — the value
the closed-form `lpf` primitive stores (`z ← v + y` with `v = y = G·input`
when the prior `z` is zero) — not `G·input`. -/
theorem k35_lz_after_impulse (f : QuadFilterUnitState) (x : Lane4)
    (hR : f.R 0 = zeroL) (hdC : f.dC 0 = zeroL) (i : Fin 4) :
    (K35Filter.process_lp f x).1.R 0 i = 2 * f.C 0 i * x i := by
  have h : (K35Filter.process_lp f x).1.R 0
      = (K35Filter.doLpf (addPs (f.C 0) (f.dC 0)) x (f.R 0)).2 := rfl
  rw [h]
  simp [K35Filter.doLpf, hR, hdC]
  ring

/-- C2 witness: the amended statement evaluated on the spec's concrete
scenario state. -/
theorem k35_lz_after_impulse_witness :
    k35Scenario.R 0 = zeroL ∧ k35Scenario.dC 0 = zeroL ∧
    (K35Filter.process_lp k35Scenario onesL).1.R 0 0 = 2 * k35Scenario.C 0 0 * onesL 0 :=
  ⟨rfl, rfl, k35_lz_after_impulse k35Scenario onesL rfl rfl 0⟩

/-- C2 counterexample: in the spec's concrete scenario (sampleRate 48000,
60 Hz, resonance 0.5, saturation 0, lowpass, zero registers, unit input),
the register `lz` after the call is `2·G·input`, and `G ≠ 0`, so it differs
from the claimed `G·input`. -/
theorem k35_scenario_lz_counterexample :
    (K35Filter.process_lp k35Scenario onesL).1.R 0 0 = 2 * k35Scenario.C 0 0 ∧
    k35Scenario.C 0 0 ≠ 0 ∧
    (K35Filter.process_lp k35Scenario onesL).1.R 0 0 ≠ k35Scenario.C 0 0 * onesL 0 := by
  have h : (K35Filter.process_lp k35Scenario onesL).1.R 0
      = (K35Filter.doLpf (addPs (k35Scenario.C 0) (k35Scenario.dC 0)) onesL
          (k35Scenario.R 0)).2 := rfl
  have hG : k35Scenario.C 0 0 ≠ 0 := by
    norm_num [k35Scenario, stateOfCoeffs, setPs1, K35Filter.makeCoefficients,
      K35Filter.clampedFrequency, cppClamp, mPI]
  have h2 : (K35Filter.process_lp k35Scenario onesL).1.R 0 0 = 2 * k35Scenario.C 0 0 := by
    rw [h]
    have hr0 : k35Scenario.R 0 = zeroL := rfl
    have hd0 : k35Scenario.dC 0 = zeroL := rfl
    simp [K35Filter.doLpf, hr0, hd0]
    ring
  refine ⟨h2, hG, ?_⟩
  rw [h2]
  simp only [onesL_apply, mul_one]
  intro hcon
  have : k35Scenario.C 0 0 = 0 := by linarith
  exact hG this

/-! ## C7 -/

theorem k35_lp_state_C (f : QuadFilterUnitState) (x : Lane4) :
    (K35Filter.process_lp f x).1.C = fun j => addPs (f.C j) (f.dC j) := rfl

theorem k35_lp_state_dC (f : QuadFilterUnitState) (x : Lane4) :
    (K35Filter.process_lp f x).1.dC = f.dC := rfl

theorem k35_hp_state_C (f : QuadFilterUnitState) (x : Lane4) :
    (K35Filter.process_hp f x).1.C = fun j => addPs (f.C j) (f.dC j) := rfl

theorem k35_hp_state_dC (f : QuadFilterUnitState) (x : Lane4) :
    (K35Filter.process_hp f x).1.dC = f.dC := rfl

theorem rw_state_C (st : ℕ) (f : QuadFilterUnitState) (x : Lane4) :
    (ResonanceWarp.process st f x).1.C
      = fun j : Fin 8 => if (j : ℕ) < 5 then addPs (f.C j) (f.dC j) else f.C j := rfl

theorem rw_state_dC (st : ℕ) (f : QuadFilterUnitState) (x : Lane4) :
    (ResonanceWarp.process st f x).1.dC = f.dC := rfl

theorem iterate_lp_dC (xs : ℕ → Lane4) (n : ℕ) (f : QuadFilterUnitState) :
    (K35Filter.iterate_lp xs n f).dC = f.dC := by
  induction n with
  | zero => rfl
  | succ n ih => rw [K35Filter.iterate_lp, k35_lp_state_dC, ih]

theorem iterate_hp_dC (xs : ℕ → Lane4) (n : ℕ) (f : QuadFilterUnitState) :
    (K35Filter.iterate_hp xs n f).dC = f.dC := by
  induction n with
  | zero => rfl
  | succ n ih => rw [K35Filter.iterate_hp, k35_hp_state_dC, ih]

theorem rw_iterate_dC (st : ℕ) (xs : ℕ → Lane4) (n : ℕ) (f : QuadFilterUnitState) :
    (ResonanceWarp.iterate st xs n f).dC = f.dC := by
  induction n with
  | zero => rfl
  | succ n ih => rw [ResonanceWarp.iterate, rw_state_dC, ih]

theorem iterate_lp_C (xs : ℕ → Lane4) (n : ℕ) (f : QuadFilterUnitState)
    (j : Fin 8) (i : Fin 4) :
    (K35Filter.iterate_lp xs n f).C j i = f.C j i + (n : ℚ) * f.dC j i := by
  induction n with
  | zero => simp [K35Filter.iterate_lp]
  | succ n ih =>
      rw [K35Filter.iterate_lp, k35_lp_state_C]
      have hd : (K35Filter.iterate_lp xs n f).dC j i = f.dC j i := by
        rw [iterate_lp_dC]
      simp only [addPs_apply, ih, hd]
      push_cast
      ring

theorem iterate_hp_C (xs : ℕ → Lane4) (n : ℕ) (f : QuadFilterUnitState)
    (j : Fin 8) (i : Fin 4) :
    (K35Filter.iterate_hp xs n f).C j i = f.C j i + (n : ℚ) * f.dC j i := by
  induction n with
  | zero => simp [K35Filter.iterate_hp]
  | succ n ih =>
      rw [K35Filter.iterate_hp, k35_hp_state_C]
      have hd : (K35Filter.iterate_hp xs n f).dC j i = f.dC j i := by
        rw [iterate_hp_dC]
      simp only [addPs_apply, ih, hd]
      push_cast
      ring

theorem rw_iterate_C (st : ℕ) (xs : ℕ → Lane4) (n : ℕ) (f : QuadFilterUnitState)
    (j : Fin 8) (i : Fin 4) :
    (ResonanceWarp.iterate st xs n f).C j i
      = if (j : ℕ) < 5 then f.C j i + (n : ℚ) * f.dC j i else f.C j i := by
  induction n with
  | zero => simp [ResonanceWarp.iterate]
  | succ n ih =>
      rw [ResonanceWarp.iterate, rw_state_C]
      have hd : (ResonanceWarp.iterate st xs n f).dC j i = f.dC j i := by
        rw [rw_iterate_dC]
      by_cases h5 : (j : ℕ) < 5
      · simp only [h5, if_true, addPs_apply, ih, hd]
        push_cast
        ring
      · simp only [h5, if_false, ih]

/-- C7 counterexample: start from `C = 0`, `dC = Δ` with `Δ = 1` in every
slot, and make one ResonanceWarp call (`N = 1`): the claim says every slot of
`C` now equals `N·Δ = 1`, but slot 5 (outside the five advanced algorithm
slots) is still 0. -/
theorem rw_ramp_counterexample :
    (ResonanceWarp.process 0 rwRampState zeroL).1.C 5 0 = 0 ∧
    ((1 : ℕ) : ℚ) * rwRampState.dC 5 0 = 1 ∧
    (ResonanceWarp.process 0 rwRampState zeroL).1.C 5 0 ≠
      ((1 : ℕ) : ℚ) * rwRampState.dC 5 0 := by
  have h0 : (ResonanceWarp.process 0 rwRampState zeroL).1.C 5 0 = 0 := by
    rw [rw_state_C]
    simp only [show ((5 : Fin 8) : ℕ) = 5 from rfl]
    norm_num [rwRampState, zeroL]
  have h1 : ((1 : ℕ) : ℚ) * rwRampState.dC 5 0 = 1 := by
    norm_num [rwRampState, onesL]
  exact ⟨h0, h1, by rw [h0, h1]; norm_num⟩

/-- C7 amended: from `C = 0`, `dC = Δ`, after `N` per-sample calls with
arbitrary inputs the K35 calls leave every slot at exactly `N·Δ` (linear,
driftless accumulation in the exact-arithmetic model); a ResonanceWarp call
advances only its five algorithm slots, so those equal `N·Δ` while slots
5–7 stay 0. -/
theorem coeff_ramp_amended (Δ : Fin 8 → Lane4) (xs : ℕ → Lane4) (n : ℕ)
    (f : QuadFilterUnitState) (hC : ∀ j, f.C j = zeroL) (hdC : ∀ j, f.dC j = Δ j) :
    (∀ j i, (K35Filter.iterate_lp xs n f).C j i = (n : ℚ) * Δ j i) ∧
    (∀ j i, (K35Filter.iterate_hp xs n f).C j i = (n : ℚ) * Δ j i) ∧
    (∀ subtype j i, (ResonanceWarp.iterate subtype xs n f).C j i
      = if (j : ℕ) < 5 then (n : ℚ) * Δ j i else 0) := by
  have hC' : ∀ j i, f.C j i = 0 := fun j i => by rw [hC j]; rfl
  have hdC' : ∀ j i, f.dC j i = Δ j i := fun j i => by rw [hdC j]
  refine ⟨fun j i => ?_, fun j i => ?_, fun st j i => ?_⟩
  · rw [iterate_lp_C, hC' j i, hdC' j i, zero_add]
  · rw [iterate_hp_C, hC' j i, hdC' j i, zero_add]
  · rw [rw_iterate_C]
    by_cases h5 : (j : ℕ) < 5
    · simp only [h5, if_true, hC' j i, hdC' j i, zero_add]
    · simp only [h5, if_false, hC' j i]

/-- C7 witness: the amended statement evaluated at `Δ = 1` in every lane of
every slot, all-ones inputs, `N = 3`, starting from `rwRampState`. -/
theorem coeff_ramp_amended_witness :
    (∀ j, rwRampState.C j = zeroL) ∧
    (∀ j, rwRampState.dC j = (fun _ : Fin 8 => onesL) j) ∧
    ((∀ j i, (K35Filter.iterate_lp (fun _ => onesL) 3 rwRampState).C j i
        = ((3 : ℕ) : ℚ) * onesL i) ∧
     (∀ j i, (K35Filter.iterate_hp (fun _ => onesL) 3 rwRampState).C j i
        = ((3 : ℕ) : ℚ) * onesL i) ∧
     (∀ subtype j i, (ResonanceWarp.iterate subtype (fun _ => onesL) 3 rwRampState).C j i
        = if (j : ℕ) < 5 then ((3 : ℕ) : ℚ) * onesL i else 0)) :=
  ⟨fun _ => rfl, fun _ => rfl,
   coeff_ramp_amended (fun _ => onesL) (fun _ => onesL) 3 rwRampState
     (fun _ => rfl) (fun _ => rfl)⟩

/-! ## C3 -/

theorem k35_lp_zero_step (f : QuadFilterUnitState) (hR : ∀ j, f.R j = zeroL) :
    (∀ j, (K35Filter.process_lp f zeroL).1.R j = zeroL) ∧
    (K35Filter.process_lp f zeroL).2 = zeroL := by
  have hR' : ∀ j i, f.R j i = 0 := fun j i => by rw [hR j]; rfl
  constructor
  · intro j
    funext i
    by_cases h0 : j = 0
    · subst h0
      simp [K35Filter.process_lp, K35Filter.processCoeffs, K35Filter.doLpf, hR', zeroL]
    · by_cases h1 : j = 1
      · subst h1
        simp [K35Filter.process_lp, K35Filter.processCoeffs, K35Filter.doLpf,
          K35Filter.doHpf, hR', zeroL, h0]
      · by_cases h2 : j = 2
        · subst h2
          simp [K35Filter.process_lp, K35Filter.processCoeffs, K35Filter.doLpf,
            K35Filter.doHpf, hR', zeroL, h0, h1]
        · simp [K35Filter.process_lp, K35Filter.processCoeffs, hR', zeroL, h0, h1, h2]
  · funext i
    simp [K35Filter.process_lp, K35Filter.processCoeffs, K35Filter.doLpf,
      K35Filter.doHpf, hR', zeroL]

theorem k35_hp_zero_step (f : QuadFilterUnitState) (hR : ∀ j, f.R j = zeroL) :
    (∀ j, (K35Filter.process_hp f zeroL).1.R j = zeroL) ∧
    (K35Filter.process_hp f zeroL).2 = zeroL := by
  have hR' : ∀ j i, f.R j i = 0 := fun j i => by rw [hR j]; rfl
  constructor
  · intro j
    funext i
    by_cases h0 : j = 0
    · subst h0
      simp [K35Filter.process_hp, K35Filter.processCoeffs, K35Filter.doLpf,
        K35Filter.doHpf, hR', zeroL]
    · by_cases h1 : j = 1
      · subst h1
        simp [K35Filter.process_hp, K35Filter.processCoeffs, K35Filter.doLpf,
          K35Filter.doHpf, hR', zeroL, h0]
      · by_cases h2 : j = 2
        · subst h2
          simp [K35Filter.process_hp, K35Filter.processCoeffs, K35Filter.doLpf,
            K35Filter.doHpf, hR', zeroL, h0, h1]
        · simp [K35Filter.process_hp, K35Filter.processCoeffs, hR', zeroL, h0, h1, h2]
  · funext i
    simp [K35Filter.process_hp, K35Filter.processCoeffs, K35Filter.doLpf,
      K35Filter.doHpf, hR', zeroL]

theorem rw_doNLFilter_zero (a1 a2 b0 b1 b2 : Lane4) (sat : ℕ) :
    (ResonanceWarp.doNLFilter zeroL a1 a2 b0 b1 b2 sat zeroL zeroL).1 = zeroL ∧
    (ResonanceWarp.doNLFilter zeroL a1 a2 b0 b1 b2 sat zeroL zeroL).2.1 = zeroL ∧
    (ResonanceWarp.doNLFilter zeroL a1 a2 b0 b1 b2 sat zeroL zeroL).2.2 = zeroL := by
  by_cases hsat : sat = ResonanceWarp.SAT_TANH <;>
    refine ⟨?_, ?_, ?_⟩ <;> funext i <;>
      simp [ResonanceWarp.doNLFilter, hsat, zeroL]

theorem rw_applyStage_zero (a1 a2 b0 b1 b2 : Lane4) (sat k : ℕ)
    (s : (Fin 8 → Lane4) × Lane4) (hs1 : ∀ j, s.1 j = zeroL) (hs2 : s.2 = zeroL) :
    (∀ j, (ResonanceWarp.applyStage a1 a2 b0 b1 b2 sat k s).1 j = zeroL) ∧
    (ResonanceWarp.applyStage a1 a2 b0 b1 b2 sat k s).2 = zeroL := by
  unfold ResonanceWarp.applyStage
  split
  · next h =>
      have hz := rw_doNLFilter_zero a1 a2 b0 b1 b2 sat
      simp only [hs2, hs1]
      refine ⟨fun j => ?_, hz.1⟩
      by_cases h1 : j = (⟨2 * k, by omega⟩ : Fin 8)
      · simp [h1, hz.2.1]
      · by_cases h2 : j = (⟨2 * k + 1, h⟩ : Fin 8)
        · simp [h1, h2, hz.2.2]
        · simp [h1, h2, hs1 j]
  · exact ⟨hs1, hs2⟩

theorem rw_stageLoop_zero (a1 a2 b0 b1 b2 : Lane4) (sat : ℕ) (n : ℕ)
    (s : (Fin 8 → Lane4) × Lane4) (hs1 : ∀ j, s.1 j = zeroL) (hs2 : s.2 = zeroL) :
    (∀ j, (ResonanceWarp.stageLoop a1 a2 b0 b1 b2 sat n s).1 j = zeroL) ∧
    (ResonanceWarp.stageLoop a1 a2 b0 b1 b2 sat n s).2 = zeroL := by
  induction n with
  | zero => exact rw_applyStage_zero a1 a2 b0 b1 b2 sat 0 s hs1 hs2
  | succ n ih =>
      exact rw_applyStage_zero a1 a2 b0 b1 b2 sat (n + 1) _ ih.1 ih.2

theorem rw_zero_step (st : ℕ) (f : QuadFilterUnitState) (hR : ∀ j, f.R j = zeroL) :
    (∀ j, (ResonanceWarp.process st f zeroL).1.R j = zeroL) ∧
    (ResonanceWarp.process st f zeroL).2 = zeroL := by
  have h := rw_stageLoop_zero (f.C 0) (f.C 1) (f.C 2) (f.C 3) (f.C 4)
    ((st / 4) % 4) (st % 4) (f.R, zeroL) hR rfl
  exact ⟨h.1, h.2⟩

/-- C3: with coefficients produced by the family's `makeCoefficients`
(deltas zero, registers zero), any number of consecutive all-zero-input calls
produces all-zero outputs and leaves every register zero, for K35 lowpass,
K35 highpass, and every ResonanceWarp subtype. -/
theorem zero_input_zero_output (tanF ntp sinF cosF : ℚ → ℚ)
    (midi0 freqK resoK : ℚ) (lp : Bool) (saturation sr srInv freqR resoR : ℚ)
    (ty : ℕ) (n : ℕ) :
    (∀ j, (K35Filter.iterate_lp zsL n (stateOfCoeffs
      (K35Filter.makeCoefficients tanF ntp midi0 freqK resoK lp saturation sr srInv))).R j
        = zeroL) ∧
    (K35Filter.process_lp (K35Filter.iterate_lp zsL n (stateOfCoeffs
      (K35Filter.makeCoefficients tanF ntp midi0 freqK resoK lp saturation sr srInv)))
        zeroL).2 = zeroL ∧
    (∀ j, (K35Filter.iterate_hp zsL n (stateOfCoeffs
      (K35Filter.makeCoefficients tanF ntp midi0 freqK resoK lp saturation sr srInv))).R j
        = zeroL) ∧
    (K35Filter.process_hp (K35Filter.iterate_hp zsL n (stateOfCoeffs
      (K35Filter.makeCoefficients tanF ntp midi0 freqK resoK lp saturation sr srInv)))
        zeroL).2 = zeroL ∧
    (∀ subtype,
      (∀ j, (ResonanceWarp.iterate subtype zsL n (stateOfCoeffs
        (ResonanceWarp.makeCoefficients sinF cosF ntp midi0 freqR resoR ty sr))).R j
          = zeroL) ∧
      (ResonanceWarp.process subtype (ResonanceWarp.iterate subtype zsL n (stateOfCoeffs
        (ResonanceWarp.makeCoefficients sinF cosF ntp midi0 freqR resoR ty sr)))
          zeroL).2 = zeroL) := by
  have hlp : ∀ m, ∀ j, (K35Filter.iterate_lp zsL m (stateOfCoeffs
      (K35Filter.makeCoefficients tanF ntp midi0 freqK resoK lp saturation sr srInv))).R j
        = zeroL := by
    intro m
    induction m with
    | zero => intro j; rfl
    | succ m ih => exact (k35_lp_zero_step _ ih).1
  have hhp : ∀ m, ∀ j, (K35Filter.iterate_hp zsL m (stateOfCoeffs
      (K35Filter.makeCoefficients tanF ntp midi0 freqK resoK lp saturation sr srInv))).R j
        = zeroL := by
    intro m
    induction m with
    | zero => intro j; rfl
    | succ m ih => exact (k35_hp_zero_step _ ih).1
  have hrw : ∀ subtype m, ∀ j, (ResonanceWarp.iterate subtype zsL m (stateOfCoeffs
      (ResonanceWarp.makeCoefficients sinF cosF ntp midi0 freqR resoR ty sr))).R j
        = zeroL := by
    intro subtype m
    induction m with
    | zero => intro j; rfl
    | succ m ih => exact (rw_zero_step subtype _ ih).1
  exact ⟨hlp n, (k35_lp_zero_step _ (hlp n)).2, hhp n, (k35_hp_zero_step _ (hhp n)).2,
    fun subtype => ⟨hrw subtype n, (rw_zero_step subtype _ (hrw subtype n)).2⟩⟩

/-! ## C5 -/

theorem rwspec_stage_eq_applyStage (a1 a2 b0 b1 b2 : Lane4) (sat k : ℕ)
    (s : (Fin 8 → Lane4) × Lane4) :
    RWSpec.stage a1 a2 b0 b1 b2 sat k s = ResonanceWarp.applyStage a1 a2 b0 b1 b2 sat k s := by
  unfold RWSpec.stage ResonanceWarp.applyStage
  split
  · by_cases hsat : sat = 0 <;>
      simp [ResonanceWarp.doNLFilter, RWSpec.saturate, ResonanceWarp.SAT_TANH, hsat]
  · rfl

theorem rwspec_chain_succ (a1 a2 b0 b1 b2 : Lane4) (sat n : ℕ)
    (s : (Fin 8 → Lane4) × Lane4) :
    RWSpec.chain a1 a2 b0 b1 b2 sat (n + 1) s
      = RWSpec.stage a1 a2 b0 b1 b2 sat n (RWSpec.chain a1 a2 b0 b1 b2 sat n s) := by
  unfold RWSpec.chain
  rw [List.range_succ, List.foldl_append]
  rfl

theorem rwspec_chain_eq_stageLoop (a1 a2 b0 b1 b2 : Lane4) (sat n : ℕ)
    (s : (Fin 8 → Lane4) × Lane4) :
    RWSpec.chain a1 a2 b0 b1 b2 sat (n + 1) s
      = ResonanceWarp.stageLoop a1 a2 b0 b1 b2 sat n s := by
  induction n with
  | zero =>
      rw [rwspec_chain_succ, rwspec_stage_eq_applyStage]
      rfl
  | succ n ih =>
      rw [rwspec_chain_succ, ih, rwspec_stage_eq_applyStage]
      rfl

/-- C5: one ResonanceWarp `process` call coincides with the claim-side
reference cascade: `N = (subtype & 3) + 1` chained nonlinear biquad stages
(stage `i`'s output feeding stage `i+1`, stage `i` owning registers `2i` and
`2i+1`), per-stage recurrence `out = z1 + b0·input`, `z1' = z2 + b1·input −
a1·out`, `z2' = b2·input − a2·out` with both new registers pushed through the
saturator selected by bits 2–3 of `subtype` (tanh-like iff 0), all stages
sharing one coefficient set that is advanced by its deltas exactly once per
call. -/
theorem rw_cascade_refinement (subtype : ℕ) (f : QuadFilterUnitState) (x : Lane4) :
    ResonanceWarp.process subtype f x = RWSpec.process subtype f x := by
  simp only [ResonanceWarp.process, RWSpec.process, rwspec_chain_eq_stageLoop]

/-! ## C6 -/

theorem cppClamp_mem (v lo hi : ℚ) (h : lo ≤ hi) :
    lo ≤ cppClamp v lo hi ∧ cppClamp v lo hi ≤ hi := by
  unfold cppClamp
  split_ifs with h1 h2
  · exact ⟨le_refl lo, h⟩
  · exact ⟨h, le_refl hi⟩
  · push_neg at h1 h2
    exact ⟨h1, h2⟩

theorem cppClamp_idem (v lo hi : ℚ) (h : lo ≤ hi) :
    cppClamp (cppClamp v lo hi) lo hi = cppClamp v lo hi := by
  unfold cppClamp
  split_ifs <;> first | rfl | linarith

/-- C6: the pitch-derived target frequency is clamped into
`[5, 0.3·sampleRate]` by both families' `clampedFrequency`; an out-of-range
resonance given to the ResonanceWarp coefficient maker behaves exactly as its
clamp into `[0,1]`; and the K35 saturation blend slot is clamped to at most 1
with the blend-inverse slot its exact complement.  (In this embedding every
coefficient maker and per-sample call is a total function: no input is
rejected and no error value exists.) -/
theorem inputs_clamped_not_rejected (tanF ntp sinF cosF : ℚ → ℚ)
    (midi0 pitch sr freq reso saturation srInv resoK : ℚ) (lp : Bool) (ty : ℕ)
    (h : (5 : ℚ) ≤ sr * 0.3) :
    ((5 : ℚ) ≤ K35Filter.clampedFrequency ntp midi0 pitch sr ∧
      K35Filter.clampedFrequency ntp midi0 pitch sr ≤ sr * 0.3) ∧
    ((5 : ℚ) ≤ ResonanceWarp.clampedFrequency ntp midi0 pitch sr ∧
      ResonanceWarp.clampedFrequency ntp midi0 pitch sr ≤ sr * 0.3) ∧
    (ResonanceWarp.makeCoefficients sinF cosF ntp midi0 freq reso ty sr
      = ResonanceWarp.makeCoefficients sinF cosF ntp midi0 freq (cppClamp reso 0 1) ty sr) ∧
    (K35Filter.makeCoefficients tanF ntp midi0 freq resoK lp saturation sr srInv 6 ≤ 1 ∧
      K35Filter.makeCoefficients tanF ntp midi0 freq resoK lp saturation sr srInv 7
        = 1 - K35Filter.makeCoefficients tanF ntp midi0 freq resoK lp saturation sr srInv 6) := by
  refine ⟨cppClamp_mem _ _ _ h, cppClamp_mem _ _ _ h, ?_, ?_, rfl⟩
  · simp only [ResonanceWarp.makeCoefficients, cppClamp_idem reso 0 1 (by norm_num)]
  · have h6 : K35Filter.makeCoefficients tanF ntp midi0 freq resoK lp saturation sr srInv 6
        = min saturation 1 := rfl
    rw [h6]
    exact min_le_right _ _

/-- C6 witness: the clamping statement evaluated at sampleRate 48000 with the
scenario's tuning provider. -/
theorem inputs_clamped_not_rejected_witness :
    (5 : ℚ) ≤ 48000 * 0.3 ∧
    (((5 : ℚ) ≤ K35Filter.clampedFrequency (fun _ => 60) 1 0 48000 ∧
       K35Filter.clampedFrequency (fun _ => 60) 1 0 48000 ≤ 48000 * 0.3) ∧
     ((5 : ℚ) ≤ ResonanceWarp.clampedFrequency (fun _ => 60) 1 0 48000 ∧
       ResonanceWarp.clampedFrequency (fun _ => 60) 1 0 48000 ≤ 48000 * 0.3) ∧
     (ResonanceWarp.makeCoefficients (fun x => x) (fun x => x) (fun _ => 60) 1 0 2 0 48000
       = ResonanceWarp.makeCoefficients (fun x => x) (fun x => x) (fun _ => 60) 1 0
           (cppClamp 2 0 1) 0 48000) ∧
     (K35Filter.makeCoefficients (fun x => x) (fun _ => 60) 1 0 0.5 true 7 48000 (1/48000) 6 ≤ 1 ∧
       K35Filter.makeCoefficients (fun x => x) (fun _ => 60) 1 0 0.5 true 7 48000 (1/48000) 7
         = 1 - K35Filter.makeCoefficients (fun x => x) (fun _ => 60) 1 0 0.5 true 7 48000
             (1/48000) 6)) :=
  ⟨by norm_num,
   inputs_clamped_not_rejected (fun x => x) (fun _ => 60) (fun x => x) (fun x => x)
     1 0 48000 0 2 7 (1/48000) 0.5 true 0 (by norm_num)⟩

/-! ## C8 -/

theorem k35_lp_lane (i : Fin 4) (f g : QuadFilterUnitState) (x y : Lane4)
    (hx : x i = y i) (hC : ∀ j, f.C j i = g.C j i) (hdC : ∀ j, f.dC j i = g.dC j i)
    (hR : ∀ j, f.R j i = g.R j i) :
    (K35Filter.process_lp f x).2 i = (K35Filter.process_lp g y).2 i ∧
    ∀ j, (K35Filter.process_lp f x).1.R j i = (K35Filter.process_lp g y).1.R j i := by
  constructor
  · simp only [K35Filter.process_lp, K35Filter.processCoeffs, K35Filter.doLpf,
      K35Filter.doHpf, addPs_apply, subPs_apply, mulPs_apply, divPs_apply,
      fasttanhSSEclamped_apply]
    simp only [hx, hC, hdC, hR]
  · intro j
    by_cases h0 : j = 0
    · subst h0
      simp only [K35Filter.process_lp, K35Filter.processCoeffs, K35Filter.doLpf,
        K35Filter.doHpf, Fin.reduceEq, reduceIte, addPs_apply, subPs_apply, mulPs_apply,
        fasttanhSSEclamped_apply]
      simp only [hx, hC, hdC, hR]
    · by_cases h1 : j = 1
      · subst h1
        simp only [K35Filter.process_lp, K35Filter.processCoeffs, K35Filter.doLpf,
          K35Filter.doHpf, Fin.reduceEq, reduceIte, addPs_apply, subPs_apply, mulPs_apply,
          fasttanhSSEclamped_apply]
        simp only [hx, hC, hdC, hR]
      · by_cases h2 : j = 2
        · subst h2
          simp only [K35Filter.process_lp, K35Filter.processCoeffs, K35Filter.doLpf,
            K35Filter.doHpf, Fin.reduceEq, reduceIte, addPs_apply, subPs_apply, mulPs_apply,
            fasttanhSSEclamped_apply]
          simp only [hx, hC, hdC, hR]
        · simp only [K35Filter.process_lp, K35Filter.processCoeffs,
            if_neg h0, if_neg h1, if_neg h2]
          exact hR j

theorem k35_hp_lane (i : Fin 4) (f g : QuadFilterUnitState) (x y : Lane4)
    (hx : x i = y i) (hC : ∀ j, f.C j i = g.C j i) (hdC : ∀ j, f.dC j i = g.dC j i)
    (hR : ∀ j, f.R j i = g.R j i) :
    (K35Filter.process_hp f x).2 i = (K35Filter.process_hp g y).2 i ∧
    ∀ j, (K35Filter.process_hp f x).1.R j i = (K35Filter.process_hp g y).1.R j i := by
  constructor
  · simp only [K35Filter.process_hp, K35Filter.processCoeffs, K35Filter.doLpf,
      K35Filter.doHpf, addPs_apply, subPs_apply, mulPs_apply, divPs_apply,
      fasttanhSSEclamped_apply]
    simp only [hx, hC, hdC, hR]
  · intro j
    by_cases h0 : j = 0
    · subst h0
      simp only [K35Filter.process_hp, K35Filter.processCoeffs, K35Filter.doLpf,
        K35Filter.doHpf, Fin.reduceEq, reduceIte, addPs_apply, subPs_apply, mulPs_apply,
        fasttanhSSEclamped_apply]
      simp only [hx, hC, hdC, hR]
    · by_cases h1 : j = 1
      · subst h1
        simp only [K35Filter.process_hp, K35Filter.processCoeffs, K35Filter.doLpf,
          K35Filter.doHpf, Fin.reduceEq, reduceIte, addPs_apply, subPs_apply, mulPs_apply,
          fasttanhSSEclamped_apply]
        simp only [hx, hC, hdC, hR]
      · by_cases h2 : j = 2
        · subst h2
          simp only [K35Filter.process_hp, K35Filter.processCoeffs, K35Filter.doLpf,
            K35Filter.doHpf, Fin.reduceEq, reduceIte, addPs_apply, subPs_apply, mulPs_apply,
            fasttanhSSEclamped_apply]
          simp only [hx, hC, hdC, hR]
        · simp only [K35Filter.process_hp, K35Filter.processCoeffs,
            if_neg h0, if_neg h1, if_neg h2]
          exact hR j

theorem rw_doNLFilter_lane (i : Fin 4)
    (x a1 a2 b0 b1 b2 z1 z2 x' a1' a2' b0' b1' b2' z1' z2' : Lane4)
    (sat : ℕ) (hx : x i = x' i) (ha1 : a1 i = a1' i) (ha2 : a2 i = a2' i)
    (hb0 : b0 i = b0' i) (hb1 : b1 i = b1' i) (hb2 : b2 i = b2' i)
    (hz1 : z1 i = z1' i) (hz2 : z2 i = z2' i) :
    (ResonanceWarp.doNLFilter x a1 a2 b0 b1 b2 sat z1 z2).1 i
      = (ResonanceWarp.doNLFilter x' a1' a2' b0' b1' b2' sat z1' z2').1 i ∧
    (ResonanceWarp.doNLFilter x a1 a2 b0 b1 b2 sat z1 z2).2.1 i
      = (ResonanceWarp.doNLFilter x' a1' a2' b0' b1' b2' sat z1' z2').2.1 i ∧
    (ResonanceWarp.doNLFilter x a1 a2 b0 b1 b2 sat z1 z2).2.2 i
      = (ResonanceWarp.doNLFilter x' a1' a2' b0' b1' b2' sat z1' z2').2.2 i := by
  by_cases hsat : sat = ResonanceWarp.SAT_TANH
  · simp only [ResonanceWarp.doNLFilter, if_pos hsat, addPs_apply, subPs_apply,
      mulPs_apply, fasttanhSSEclamped_apply]
    refine ⟨?_, ?_, ?_⟩ <;> simp only [hx, ha1, ha2, hb0, hb1, hb2, hz1, hz2]
  · simp only [ResonanceWarp.doNLFilter, if_neg hsat, addPs_apply, subPs_apply,
      mulPs_apply, softclip_ps_apply]
    refine ⟨?_, ?_, ?_⟩ <;> simp only [hx, ha1, ha2, hb0, hb1, hb2, hz1, hz2]

theorem rw_applyStage_lane (i : Fin 4) (a1 a2 b0 b1 b2 a1' a2' b0' b1' b2' : Lane4)
    (sat k : ℕ) (s s' : (Fin 8 → Lane4) × Lane4)
    (ha1 : a1 i = a1' i) (ha2 : a2 i = a2' i) (hb0 : b0 i = b0' i)
    (hb1 : b1 i = b1' i) (hb2 : b2 i = b2' i)
    (h1 : ∀ j, s.1 j i = s'.1 j i) (h2 : s.2 i = s'.2 i) :
    (∀ j, (ResonanceWarp.applyStage a1 a2 b0 b1 b2 sat k s).1 j i
        = (ResonanceWarp.applyStage a1' a2' b0' b1' b2' sat k s').1 j i) ∧
    (ResonanceWarp.applyStage a1 a2 b0 b1 b2 sat k s).2 i
      = (ResonanceWarp.applyStage a1' a2' b0' b1' b2' sat k s').2 i := by
  by_cases hk : 2 * k + 1 < 8
  · have hd := rw_doNLFilter_lane i s.2 a1 a2 b0 b1 b2 (s.1 ⟨2 * k, by omega⟩)
      (s.1 ⟨2 * k + 1, hk⟩) s'.2 a1' a2' b0' b1' b2' (s'.1 ⟨2 * k, by omega⟩)
      (s'.1 ⟨2 * k + 1, hk⟩) sat h2 ha1 ha2 hb0 hb1 hb2 (h1 _) (h1 _)
    constructor
    · intro j
      simp only [ResonanceWarp.applyStage, dif_pos hk]
      by_cases hj1 : j = (⟨2 * k, by omega⟩ : Fin 8)
      · simp only [if_pos hj1]
        exact hd.2.1
      · by_cases hj2 : j = (⟨2 * k + 1, hk⟩ : Fin 8)
        · simp only [if_neg hj1, if_pos hj2]
          exact hd.2.2
        · simp only [if_neg hj1, if_neg hj2]
          exact h1 j
    · simp only [ResonanceWarp.applyStage, dif_pos hk]
      exact hd.1
  · simp only [ResonanceWarp.applyStage, dif_neg hk]
    exact ⟨h1, h2⟩

theorem rw_stageLoop_lane (i : Fin 4) (a1 a2 b0 b1 b2 a1' a2' b0' b1' b2' : Lane4)
    (sat : ℕ) (ha1 : a1 i = a1' i) (ha2 : a2 i = a2' i) (hb0 : b0 i = b0' i)
    (hb1 : b1 i = b1' i) (hb2 : b2 i = b2' i) (n : ℕ)
    (s s' : (Fin 8 → Lane4) × Lane4)
    (h1 : ∀ j, s.1 j i = s'.1 j i) (h2 : s.2 i = s'.2 i) :
    (∀ j, (ResonanceWarp.stageLoop a1 a2 b0 b1 b2 sat n s).1 j i
        = (ResonanceWarp.stageLoop a1' a2' b0' b1' b2' sat n s').1 j i) ∧
    (ResonanceWarp.stageLoop a1 a2 b0 b1 b2 sat n s).2 i
      = (ResonanceWarp.stageLoop a1' a2' b0' b1' b2' sat n s').2 i := by
  induction n generalizing s s' with
  | zero =>
      exact rw_applyStage_lane i a1 a2 b0 b1 b2 a1' a2' b0' b1' b2' sat 0 s s'
        ha1 ha2 hb0 hb1 hb2 h1 h2
  | succ n ih =>
      have hprev := ih s s' h1 h2
      exact rw_applyStage_lane i a1 a2 b0 b1 b2 a1' a2' b0' b1' b2' sat (n + 1) _ _
        ha1 ha2 hb0 hb1 hb2 hprev.1 hprev.2

/-- C8: lanes never interact.  If two states and inputs agree on lane `i` of
the input, of every coefficient slot, of every delta slot and of every
register slot, then lane `i` of the output and lane `i` of every post-call
register agree too, for K35 lowpass, K35 highpass, and every ResonanceWarp
subtype. -/
theorem lane_noninterference (i : Fin 4) (f g : QuadFilterUnitState) (x y : Lane4)
    (hx : x i = y i) (hC : ∀ j, f.C j i = g.C j i) (hdC : ∀ j, f.dC j i = g.dC j i)
    (hR : ∀ j, f.R j i = g.R j i) :
    ((K35Filter.process_lp f x).2 i = (K35Filter.process_lp g y).2 i ∧
     ∀ j, (K35Filter.process_lp f x).1.R j i = (K35Filter.process_lp g y).1.R j i) ∧
    ((K35Filter.process_hp f x).2 i = (K35Filter.process_hp g y).2 i ∧
     ∀ j, (K35Filter.process_hp f x).1.R j i = (K35Filter.process_hp g y).1.R j i) ∧
    (∀ subtype, (ResonanceWarp.process subtype f x).2 i
        = (ResonanceWarp.process subtype g y).2 i ∧
      ∀ j, (ResonanceWarp.process subtype f x).1.R j i
        = (ResonanceWarp.process subtype g y).1.R j i) := by
  refine ⟨k35_lp_lane i f g x y hx hC hdC hR, k35_hp_lane i f g x y hx hC hdC hR, ?_⟩
  intro subtype
  have hs := rw_stageLoop_lane i (f.C 0) (f.C 1) (f.C 2) (f.C 3) (f.C 4)
    (g.C 0) (g.C 1) (g.C 2) (g.C 3) (g.C 4) ((subtype / 4) % 4)
    (hC 0) (hC 1) (hC 2) (hC 3) (hC 4) (subtype % 4) (f.R, x) (g.R, y) hR hx
  exact ⟨hs.2, hs.1⟩

/-- C8 witness: `sampleState` and `sampleStatePerturbed` agree only on lane 0
of every slot, and `onesL`/`onesPerturbedL` agree only on lane 0; lane 0 of
the outputs and of representative post-call registers coincide for all three
process routines (ResonanceWarp taken at subtype 6). -/
theorem lane_noninterference_witness :
    ((K35Filter.process_lp sampleState onesL).2 0
       = (K35Filter.process_lp sampleStatePerturbed onesPerturbedL).2 0 ∧
     (K35Filter.process_lp sampleState onesL).1.R 1 0
       = (K35Filter.process_lp sampleStatePerturbed onesPerturbedL).1.R 1 0) ∧
    ((K35Filter.process_hp sampleState onesL).2 0
       = (K35Filter.process_hp sampleStatePerturbed onesPerturbedL).2 0) ∧
    ((ResonanceWarp.process 6 sampleState onesL).2 0
       = (ResonanceWarp.process 6 sampleStatePerturbed onesPerturbedL).2 0 ∧
     (ResonanceWarp.process 6 sampleState onesL).1.R 3 0
       = (ResonanceWarp.process 6 sampleStatePerturbed onesPerturbedL).1.R 3 0) := by
  have h := lane_noninterference 0 sampleState sampleStatePerturbed onesL onesPerturbedL
    rfl (fun j => rfl) (fun j => rfl) (fun j => rfl)
  exact ⟨⟨h.1.1, h.1.2 1⟩, h.2.1.1, (h.2.2 6).1, (h.2.2 6).2 3⟩

/-! ## C10 -/

theorem rw_applyStage_frame (a1 a2 b0 b1 b2 : Lane4) (sat k : ℕ)
    (s : (Fin 8 → Lane4) × Lane4) (j : Fin 8)
    (hj1 : (j : ℕ) ≠ 2 * k) (hj2 : (j : ℕ) ≠ 2 * k + 1) :
    (ResonanceWarp.applyStage a1 a2 b0 b1 b2 sat k s).1 j = s.1 j := by
  by_cases hk : 2 * k + 1 < 8
  · simp only [ResonanceWarp.applyStage, dif_pos hk]
    rw [if_neg, if_neg]
    · intro h
      exact hj2 (by rw [h])
    · intro h
      exact hj1 (by rw [h])
  · simp only [ResonanceWarp.applyStage, dif_neg hk]

theorem rw_stageLoop_frame (a1 a2 b0 b1 b2 : Lane4) (sat n : ℕ)
    (s : (Fin 8 → Lane4) × Lane4) (j : Fin 8) (hj : 2 * (n + 1) ≤ (j : ℕ)) :
    (ResonanceWarp.stageLoop a1 a2 b0 b1 b2 sat n s).1 j = s.1 j := by
  induction n generalizing s with
  | zero =>
      exact rw_applyStage_frame a1 a2 b0 b1 b2 sat 0 s j (by omega) (by omega)
  | succ n ih =>
      rw [ResonanceWarp.stageLoop,
        rw_applyStage_frame a1 a2 b0 b1 b2 sat (n + 1) _ j (by omega) (by omega),
        ih _ (by omega)]

theorem rw_stageLoop_read (a1 a2 b0 b1 b2 : Lane4) (sat n : ℕ) (hn : n < 4)
    (R R' : Fin 8 → Lane4) (x : Lane4)
    (hlow : ∀ j : Fin 8, (j : ℕ) < 2 * (n + 1) → R j = R' j) :
    (ResonanceWarp.stageLoop a1 a2 b0 b1 b2 sat n (R, x)).2
      = (ResonanceWarp.stageLoop a1 a2 b0 b1 b2 sat n (R', x)).2 ∧
    ∀ j : Fin 8, (j : ℕ) < 2 * (n + 1) →
      (ResonanceWarp.stageLoop a1 a2 b0 b1 b2 sat n (R, x)).1 j
        = (ResonanceWarp.stageLoop a1 a2 b0 b1 b2 sat n (R', x)).1 j := by
  induction n generalizing R R' with
  | zero =>
      have hR01 : R ⟨2 * 0, by omega⟩ = R' ⟨2 * 0, by omega⟩ :=
        hlow ⟨2 * 0, by omega⟩ (show (2 * 0 : ℕ) < 2 * (0 + 1) by omega)
      have hR02 : R ⟨2 * 0 + 1, by omega⟩ = R' ⟨2 * 0 + 1, by omega⟩ :=
        hlow ⟨2 * 0 + 1, by omega⟩ (show (2 * 0 + 1 : ℕ) < 2 * (0 + 1) by omega)
      simp only [ResonanceWarp.stageLoop, ResonanceWarp.applyStage,
        dif_pos (show 2 * 0 + 1 < 8 by omega)]
      rw [hR01, hR02]
      refine ⟨rfl, fun j hj => ?_⟩
      by_cases hj1 : j = (⟨2 * 0, by omega⟩ : Fin 8)
      · simp only [if_pos hj1]
      · by_cases hj2 : j = (⟨2 * 0 + 1, by omega⟩ : Fin 8)
        · simp only [if_neg hj1, if_pos hj2]
        · simp only [if_neg hj1, if_neg hj2]
          exact hlow j hj
  | succ n ih =>
      have hprev := ih (by omega) R R' (fun j hj => hlow j (by omega))
      have hhi1 : (ResonanceWarp.stageLoop a1 a2 b0 b1 b2 sat n (R, x)).1
          ⟨2 * (n + 1), by omega⟩
          = (ResonanceWarp.stageLoop a1 a2 b0 b1 b2 sat n (R', x)).1
          ⟨2 * (n + 1), by omega⟩ := by
        rw [rw_stageLoop_frame a1 a2 b0 b1 b2 sat n _ _ (le_refl _),
          rw_stageLoop_frame a1 a2 b0 b1 b2 sat n _ _ (le_refl _)]
        exact hlow ⟨2 * (n + 1), by omega⟩ (show 2 * (n + 1) < 2 * (n + 1 + 1) by omega)
      have hhi2 : (ResonanceWarp.stageLoop a1 a2 b0 b1 b2 sat n (R, x)).1
          ⟨2 * (n + 1) + 1, by omega⟩
          = (ResonanceWarp.stageLoop a1 a2 b0 b1 b2 sat n (R', x)).1
          ⟨2 * (n + 1) + 1, by omega⟩ := by
        rw [rw_stageLoop_frame a1 a2 b0 b1 b2 sat n _ _
            (show 2 * (n + 1) ≤ 2 * (n + 1) + 1 by omega),
          rw_stageLoop_frame a1 a2 b0 b1 b2 sat n _ _
            (show 2 * (n + 1) ≤ 2 * (n + 1) + 1 by omega)]
        exact hlow ⟨2 * (n + 1) + 1, by omega⟩
          (show 2 * (n + 1) + 1 < 2 * (n + 1 + 1) by omega)
      simp only [ResonanceWarp.stageLoop, ResonanceWarp.applyStage,
        dif_pos (show 2 * (n + 1) + 1 < 8 by omega)]
      rw [hprev.1, hhi1, hhi2]
      refine ⟨rfl, fun j hj => ?_⟩
      by_cases hj1 : j = (⟨2 * (n + 1), by omega⟩ : Fin 8)
      · simp only [if_pos hj1]
      · by_cases hj2 : j = (⟨2 * (n + 1) + 1, by omega⟩ : Fin 8)
        · simp only [if_neg hj1, if_pos hj2]
        · simp only [if_neg hj1, if_neg hj2]
          have e1 : (j : ℕ) ≠ 2 * (n + 1) := fun h => hj1 (Fin.ext h)
          have e2 : (j : ℕ) ≠ 2 * (n + 1) + 1 := fun h => hj2 (Fin.ext h)
          exact hprev.2 j (by omega)

/-- C10: a ResonanceWarp call with `N = (subtype & 3) + 1` active stages
writes only the first `2N` register slots — every slot with index `≥ 2N` is
returned unchanged — and reads only the first `2N` register slots: two states
agreeing on those slots (with the same coefficients and input) produce the
same output and the same first `2N` post-call registers. -/
theorem rw_register_frame (subtype : ℕ) (f g : QuadFilterUnitState) (x : Lane4) :
    (∀ j : Fin 8, 2 * (subtype % 4 + 1) ≤ (j : ℕ) →
      (ResonanceWarp.process subtype f x).1.R j = f.R j) ∧
    ((∀ j : Fin 8, (j : ℕ) < 2 * (subtype % 4 + 1) → f.R j = g.R j) →
      (∀ j, f.C j = g.C j) →
      (ResonanceWarp.process subtype f x).2 = (ResonanceWarp.process subtype g x).2 ∧
      ∀ j : Fin 8, (j : ℕ) < 2 * (subtype % 4 + 1) →
        (ResonanceWarp.process subtype f x).1.R j
          = (ResonanceWarp.process subtype g x).1.R j) := by
  constructor
  · intro j hj
    exact rw_stageLoop_frame (f.C 0) (f.C 1) (f.C 2) (f.C 3) (f.C 4)
      ((subtype / 4) % 4) (subtype % 4) (f.R, x) j hj
  · intro hlow hC
    have h := rw_stageLoop_read (f.C 0) (f.C 1) (f.C 2) (f.C 3) (f.C 4)
      ((subtype / 4) % 4) (subtype % 4) (Nat.mod_lt _ (by omega)) f.R g.R x hlow
    constructor
    · show (ResonanceWarp.stageLoop (f.C 0) (f.C 1) (f.C 2) (f.C 3) (f.C 4)
          ((subtype / 4) % 4) (subtype % 4) (f.R, x)).2
        = (ResonanceWarp.stageLoop (g.C 0) (g.C 1) (g.C 2) (g.C 3) (g.C 4)
          ((subtype / 4) % 4) (subtype % 4) (g.R, x)).2
      rw [← hC 0, ← hC 1, ← hC 2, ← hC 3, ← hC 4]
      exact h.1
    · intro j hj
      show (ResonanceWarp.stageLoop (f.C 0) (f.C 1) (f.C 2) (f.C 3) (f.C 4)
          ((subtype / 4) % 4) (subtype % 4) (f.R, x)).1 j
        = (ResonanceWarp.stageLoop (g.C 0) (g.C 1) (g.C 2) (g.C 3) (g.C 4)
          ((subtype / 4) % 4) (subtype % 4) (g.R, x)).1 j
      rw [← hC 0, ← hC 1, ← hC 2, ← hC 3, ← hC 4]
      exact h.2 j hj

/-- C10 witness: with one active stage (subtype 0), register slot 5 is
untouched, and a perturbation of `sampleState` in the register slots at
index `≥ 2` leaves the output unchanged. -/
theorem rw_register_frame_witness :
    (ResonanceWarp.process 0 sampleState onesL).1.R 5 = sampleState.R 5 ∧
    (ResonanceWarp.process 0 sampleState onesL).2
      = (ResonanceWarp.process 0
          ⟨sampleState.C, sampleState.dC,
           fun j => if (j : ℕ) < 2 then sampleState.R j else onesL⟩ onesL).2 := by
  constructor
  · exact (rw_register_frame 0 sampleState sampleState onesL).1 5 (by decide)
  · exact ((rw_register_frame 0 sampleState
      ⟨sampleState.C, sampleState.dC,
       fun j => if (j : ℕ) < 2 then sampleState.R j else onesL⟩ onesL).2
      (fun j hj => (if_pos (show ((j : ℕ) < 2) by omega)).symm) (fun j => rfl)).1
